import Mathlib

/-!
Shallow embedding of the lifecycled autoscaling listener
(source file: autoscaling.go of triarius/lifecycled).

The embedding models:

* the two-layer JSON decoding ("Envelope" and "Message", decoded with
  encoding/json struct semantics: unknown object keys are ignored, keys are
  matched case-insensitively with Go's json field matching, a JSON null
  leaves a field at its zero value, a wrong JSON type for a field is a
  decode error, trailing input is a decode error, a top-level null yields
  the zero struct).  The time.Time fields are modelled as raw strings and
  their RFC3339 validation is abstracted away (any JSON string is accepted);
  no claim depends on timestamp parsing.
* AutoscalingListener.Start as a deterministic function of an environment
  that supplies the results of the external collaborators (queue create,
  subscribe, each poll round with its messages and per-message delete
  results, unsubscribe, delete).  The observable behaviour is recorded as a
  trace of events.  The unbounded Go for-loop is driven by the finite list
  of supplied poll rounds; running out of rounds is reported as a distinct
  "outOfRounds" result (the Go loop would simply still be running, so no
  deferred teardown has happened yet on that path).
* autoscalingTerminationNotice.Handle as a small-step interleaving machine
  with two threads: the main goroutine (handler.Execute, then the deferred
  ticker.Stop, then the deferred CompleteLifecycleAction) and the heartbeat
  goroutine (for range ticker.C).  Go's time.Ticker delivers ticks through a
  channel of capacity one; Ticker.Stop prevents future sends but does not
  drain an already buffered tick, and the goroutine keeps running after
  Stop, so a tick delivered before the stop may still produce a heartbeat
  call afterwards.  A scheduler choice sequence resolves the
  nondeterministic interleaving.
-/

namespace Lifecycled

/-- JSON values, the decoding target of encoding/json as needed here.
Numbers are kept as their raw source text: no claim inspects a numeric
value. -/
inductive JVal where
  | str (s : String)
  | num (s : String)
  | bool (b : Bool)
  | null
  | arr (elems : List JVal)
  | obj (fields : List (String × JVal))

/-- Whitespace as accepted between JSON tokens. -/
def isWs (c : Char) : Bool :=
  c == ' ' || c == '\n' || c == '\t' || c == '\r'

/-- Drop leading JSON whitespace. -/
def skipWs : List Char → List Char
  | [] => []
  | c :: cs => if isWs c then skipWs cs else c :: cs

/-- Value of a hexadecimal digit, for string escapes. -/
def hexVal (c : Char) : Option Nat :=
  if '0' ≤ c ∧ c ≤ '9' then some (c.toNat - 48)
  else if 'a' ≤ c ∧ c ≤ 'f' then some (c.toNat - 87)
  else if 'A' ≤ c ∧ c ≤ 'F' then some (c.toNat - 55)
  else none

/-- Parse the body of a JSON string after the opening quote, handling the
escape sequences of the JSON grammar; returns the decoded string and the
remaining input.  Fuel makes the recursion structural. -/
def parseStringBody : Nat → List Char → String → Option (String × List Char)
  | 0, _, _ => none
  | _ + 1, [], _ => none
  | fuel + 1, c :: cs, acc =>
    if c == '"' then some (acc, cs)
    else if c == '\\' then
      match cs with
      | [] => none
      | e :: cs' =>
        if e == '"' then parseStringBody fuel cs' (acc.push '"')
        else if e == '\\' then parseStringBody fuel cs' (acc.push '\\')
        else if e == '/' then parseStringBody fuel cs' (acc.push '/')
        else if e == 'n' then parseStringBody fuel cs' (acc.push '\n')
        else if e == 't' then parseStringBody fuel cs' (acc.push '\t')
        else if e == 'r' then parseStringBody fuel cs' (acc.push '\r')
        else if e == 'b' then parseStringBody fuel cs' (acc.push (Char.ofNat 8))
        else if e == 'f' then parseStringBody fuel cs' (acc.push (Char.ofNat 12))
        else if e == 'u' then
          match cs' with
          | h1 :: h2 :: h3 :: h4 :: cs'' =>
            match hexVal h1, hexVal h2, hexVal h3, hexVal h4 with
            | some a, some b, some c3, some d =>
              parseStringBody fuel cs''
                (acc.push (Char.ofNat (((a * 16 + b) * 16 + c3) * 16 + d)))
            | _, _, _, _ => none
          | _ => none
        else none
    else parseStringBody fuel cs (acc.push c)

/-- Characters that may occur in a JSON number literal (lenient: the exact
number grammar is irrelevant to every claim, no number reaches a decoded
field). -/
def isNumChar (c : Char) : Bool :=
  c.isDigit || c == '-' || c == '+' || c == '.' || c == 'e' || c == 'E'

/-- Consume a run of number characters. -/
def takeNum : List Char → String → String × List Char
  | [], acc => (acc, [])
  | c :: cs, acc => if isNumChar c then takeNum cs (acc.push c) else (acc, c :: cs)

mutual

/-- Parse one JSON value; returns the value and the remaining input. -/
def parseValue : Nat → List Char → Option (JVal × List Char)
  | 0, _ => none
  | fuel + 1, cs =>
    match skipWs cs with
    | [] => none
    | '"' :: rest =>
      match parseStringBody fuel rest "" with
      | some (s, rest') => some (JVal.str s, rest')
      | none => none
    | '{' :: rest =>
      match skipWs rest with
      | '}' :: rest' => some (JVal.obj [], rest')
      | _ =>
        match parseObjFields fuel rest with
        | some (fs, rest') => some (JVal.obj fs, rest')
        | none => none
    | '[' :: rest =>
      match skipWs rest with
      | ']' :: rest' => some (JVal.arr [], rest')
      | _ =>
        match parseArrElems fuel rest with
        | some (es, rest') => some (JVal.arr es, rest')
        | none => none
    | 't' :: 'r' :: 'u' :: 'e' :: rest => some (JVal.bool true, rest)
    | 'f' :: 'a' :: 'l' :: 's' :: 'e' :: rest => some (JVal.bool false, rest)
    | 'n' :: 'u' :: 'l' :: 'l' :: rest => some (JVal.null, rest)
    | c :: rest =>
      if c.isDigit || c == '-' then
        match takeNum (c :: rest) "" with
        | (s, rest') => some (JVal.num s, rest')
      else none

/-- Parse the fields of a JSON object after the opening brace (at least one
field; the empty object is handled by the caller). -/
def parseObjFields : Nat → List Char → Option (List (String × JVal) × List Char)
  | 0, _ => none
  | fuel + 1, cs =>
    match skipWs cs with
    | '"' :: rest =>
      match parseStringBody fuel rest "" with
      | some (k, rest') =>
        match skipWs rest' with
        | ':' :: rest2 =>
          match parseValue fuel rest2 with
          | some (v, rest3) =>
            match skipWs rest3 with
            | ',' :: rest4 =>
              match parseObjFields fuel rest4 with
              | some (fs, rest5) => some ((k, v) :: fs, rest5)
              | none => none
            | '}' :: rest4 => some ([(k, v)], rest4)
            | _ => none
          | none => none
        | _ => none
      | none => none
    | _ => none

/-- Parse the elements of a JSON array after the opening bracket (at least
one element; the empty array is handled by the caller). -/
def parseArrElems : Nat → List Char → Option (List JVal × List Char)
  | 0, _ => none
  | fuel + 1, cs =>
    match parseValue fuel cs with
    | some (v, rest) =>
      match skipWs rest with
      | ',' :: rest' =>
        match parseArrElems fuel rest' with
        | some (es, rest2) => some (v :: es, rest2)
        | none => none
      | ']' :: rest' => some ([v], rest')
      | _ => none
    | none => none

end

/-- Parse a complete JSON document: one value, with only whitespace allowed
after it (json.Unmarshal rejects trailing data). -/
def parseJson (s : String) : Option JVal :=
  let cs := s.toList
  match parseValue (4 * cs.length + 16) cs with
  | some (v, rest) => if (skipWs rest).isEmpty then some v else none
  | none => none

/-- Lowercase an ASCII letter, used for Go's case-insensitive JSON key
matching. -/
def asciiLower (c : Char) : Char :=
  if 'A' ≤ c ∧ c ≤ 'Z' then Char.ofNat (c.toNat + 32) else c

/-- Case-insensitive string comparison (ASCII folding, as Go's field
matching does for these all-ASCII tags). -/
def eqFold (a b : String) : Bool :=
  a.toList.map asciiLower == b.toList.map asciiLower

/-- Does a JSON object key select the struct field with the given tag?
encoding/json prefers an exact match but also accepts a case-insensitive
one. -/
def keyMatches (k tag : String) : Bool :=
  k == tag || eqFold k tag

/-- Outer transport wrapper (type Envelope in autoscaling.go).  The
time.Time field is modelled as the raw string. -/
structure Envelope where
  type : String
  subject : String
  time : String
  message : String
  deriving DecidableEq

/-- Zero value of Envelope, the starting point of json.Unmarshal. -/
def emptyEnvelope : Envelope :=
  { type := "", subject := "", time := "", message := "" }

/-- Assign one JSON object field into an Envelope: a JSON string sets the
matching field, a JSON null leaves it unchanged, any other JSON type for a
known field is a decode error, and unknown keys are ignored. -/
def setEnvelopeField (env : Envelope) (k : String) (v : JVal) : Option Envelope :=
  if keyMatches k "Type" then
    match v with
    | JVal.str s => some { env with type := s }
    | JVal.null => some env
    | _ => none
  else if keyMatches k "Subject" then
    match v with
    | JVal.str s => some { env with subject := s }
    | JVal.null => some env
    | _ => none
  else if keyMatches k "Time" then
    match v with
    | JVal.str s => some { env with time := s }
    | JVal.null => some env
    | _ => none
  else if keyMatches k "Message" then
    match v with
    | JVal.str s => some { env with message := s }
    | JVal.null => some env
    | _ => none
  else some env

/-- Fold the JSON object fields into an Envelope in source order (later
duplicate keys overwrite earlier ones, as encoding/json does). -/
def setEnvelopeFields : Envelope → List (String × JVal) → Option Envelope
  | env, [] => some env
  | env, (k, v) :: fs =>
    match setEnvelopeField env k v with
    | some env' => setEnvelopeFields env' fs
    | none => none

/-- Decode the outer layer, as json.Unmarshal([]byte(*m.Body), &env) does:
the document must be a JSON object (or null, which yields the zero value). -/
def decodeEnvelope (body : String) : Option Envelope :=
  match parseJson body with
  | some (JVal.obj fs) => setEnvelopeFields emptyEnvelope fs
  | some JVal.null => some emptyEnvelope
  | _ => none

/-- Inner domain event (type Message in autoscaling.go). -/
structure Message where
  time : String
  groupName : String
  instanceID : String
  actionToken : String
  transition : String
  hookName : String
  deriving DecidableEq

/-- Zero value of Message. -/
def emptyMessage : Message :=
  { time := "", groupName := "", instanceID := "", actionToken := ""
    transition := "", hookName := "" }

/-- Assign one JSON object field into a Message (same conventions as for
Envelope; the json tags are those of autoscaling.go). -/
def setMessageField (msg : Message) (k : String) (v : JVal) : Option Message :=
  if keyMatches k "Time" then
    match v with
    | JVal.str s => some { msg with time := s }
    | JVal.null => some msg
    | _ => none
  else if keyMatches k "AutoScalingGroupName" then
    match v with
    | JVal.str s => some { msg with groupName := s }
    | JVal.null => some msg
    | _ => none
  else if keyMatches k "EC2InstanceId" then
    match v with
    | JVal.str s => some { msg with instanceID := s }
    | JVal.null => some msg
    | _ => none
  else if keyMatches k "LifecycleActionToken" then
    match v with
    | JVal.str s => some { msg with actionToken := s }
    | JVal.null => some msg
    | _ => none
  else if keyMatches k "LifecycleTransition" then
    match v with
    | JVal.str s => some { msg with transition := s }
    | JVal.null => some msg
    | _ => none
  else if keyMatches k "LifecycleHookName" then
    match v with
    | JVal.str s => some { msg with hookName := s }
    | JVal.null => some msg
    | _ => none
  else some msg

/-- Fold the JSON object fields into a Message in source order. -/
def setMessageFields : Message → List (String × JVal) → Option Message
  | msg, [] => some msg
  | msg, (k, v) :: fs =>
    match setMessageField msg k v with
    | some msg' => setMessageFields msg' fs
    | none => none

/-- Decode the inner layer, as json.Unmarshal([]byte(env.Message), &msg)
does. -/
def decodeMessage (payload : String) : Option Message :=
  match parseJson payload with
  | some (JVal.obj fs) => setMessageFields emptyMessage fs
  | some JVal.null => some emptyMessage
  | _ => none

/-- Lifecycle transition string the listener filters for (the literal at
line 126 of autoscaling.go). -/
def terminationTransition : String := "autoscaling:EC2_INSTANCE_TERMINATING"

/-- The listener (type AutoscalingListener in autoscaling.go).  The queue
and the autoscaling client are external collaborators; their responses are
supplied by the environment of a run, so only the data fields remain. -/
structure AutoscalingListener where
  listenerType : String
  instanceID : String
  heartbeatInterval : Nat
  deriving DecidableEq

/-- Constructor NewAutoscalingListener: the listener type tag is always
"autoscaling". -/
def NewAutoscalingListener (instanceID : String) (heartbeatInterval : Nat) :
    AutoscalingListener :=
  { listenerType := "autoscaling", instanceID := instanceID
    heartbeatInterval := heartbeatInterval }

/-- The notice sent on the notices channel (type
autoscalingTerminationNotice in autoscaling.go); the autoscaling client
reference is an external collaborator and is dropped. -/
structure autoscalingTerminationNotice where
  noticeType : String
  message : Message
  heartbeatInterval : Nat
  deriving DecidableEq

/-- One raw SQS message as delivered by Queue.GetMessages, together with
the environment's answer to the DeleteMessage call for it (none means the
delete succeeded). -/
structure RawItem where
  receiptHandle : String
  body : String
  ackErr : Option String
  deriving DecidableEq

/-- Environment of one iteration of the polling loop: whether ctx.Done()
fires at the top of the select, the error (if any) of Queue.GetMessages,
and the messages it returns.  autoscaling.go ranges over the returned
slice even when the poll reported an error, so the two are independent. -/
structure PollRound where
  ctxDone : Bool
  pollErr : Option String
  items : List RawItem
  deriving DecidableEq

/-- Environment of one run of Start: answers of all external collaborator
calls, in particular a finite trace of poll rounds driving the unbounded
loop. -/
structure StartEnv where
  createErr : Option String
  subscribeErr : Option String
  rounds : List PollRound
  unsubscribeErr : Option String
  deleteErr : Option String
  deriving DecidableEq

/-- Observable events of one run of Start, in chronological order. -/
inductive LEvent where
  | polled (pollErr : Option String)
  | acked (receiptHandle : String) (ackErr : Option String)
  | envelopeDecodeFailed (body : String)
  | messageDecodeFailed (payload : String)
  | skippedInstance (target : String)
  | skippedTransition (transition : String)
  | emitted (n : autoscalingTerminationNotice)
  | unsubscribed (r : Option String)
  | deletedQueue (r : Option String)
  deriving DecidableEq

/-- Outcome of examining one raw message body (lines 104-136 of
autoscaling.go, after the DeleteMessage call): either the loop emits a
notice and returns, or it records a skip event and continues. -/
inductive ItemStep where
  | emit (n : autoscalingTerminationNotice)
  | skip (ev : LEvent)
  deriving DecidableEq

/-- Processing of a decoded envelope (lines 115-136): decode the inner
message from env.Message, filter on instance id and transition, and build
the notice.  Only the Message field of the envelope is consulted. -/
def classifyEnvelope (instanceID listenerType : String) (heartbeatInterval : Nat)
    (env : Envelope) : ItemStep :=
  match decodeMessage env.message with
  | none => ItemStep.skip (LEvent.messageDecodeFailed env.message)
  | some msg =>
    if msg.instanceID ≠ instanceID then
      ItemStep.skip (LEvent.skippedInstance msg.instanceID)
    else if msg.transition ≠ terminationTransition then
      ItemStep.skip (LEvent.skippedTransition msg.transition)
    else
      ItemStep.emit
        { noticeType := listenerType, message := msg
          heartbeatInterval := heartbeatInterval }

/-- Processing of one raw message body (lines 104-136): decode the outer
envelope, then continue with classifyEnvelope. -/
def classifyItem (instanceID listenerType : String) (heartbeatInterval : Nat)
    (body : String) : ItemStep :=
  match decodeEnvelope body with
  | none => ItemStep.skip (LEvent.envelopeDecodeFailed body)
  | some env => classifyEnvelope instanceID listenerType heartbeatInterval env

/-- The inner for-loop over one poll batch (lines 96-138): each message is
acknowledged (DeleteMessage) first, its delete error only logged, then
decoded and filtered; the first match emits the notice and stops, leaving
the rest of the batch unexamined. -/
def processItems (instanceID listenerType : String) (heartbeatInterval : Nat) :
    List RawItem → List LEvent × Option autoscalingTerminationNotice
  | [] => ([], none)
  | item :: rest =>
    match classifyItem instanceID listenerType heartbeatInterval item.body with
    | ItemStep.emit n =>
      ([LEvent.acked item.receiptHandle item.ackErr, LEvent.emitted n], some n)
    | ItemStep.skip ev =>
      (LEvent.acked item.receiptHandle item.ackErr
          :: ev :: (processItems instanceID listenerType heartbeatInterval rest).1,
        (processItems instanceID listenerType heartbeatInterval rest).2)

/-- How the polling loop ended. -/
inductive LoopExit where
  | returned
  | fuelOut
  deriving DecidableEq

/-- The outer polling loop (lines 86-140): each iteration first checks the
select on ctx.Done() (returning nil when cancelled), then polls, logging
a poll failure, then processes the batch.  Every exit of the Go loop is a
return nil; running out of supplied rounds means the loop is still going
(fuelOut). -/
def runRounds (instanceID listenerType : String) (heartbeatInterval : Nat) :
    List PollRound → List LEvent × LoopExit
  | [] => ([], LoopExit.fuelOut)
  | r :: rs =>
    if r.ctxDone then ([], LoopExit.returned)
    else
      match (processItems instanceID listenerType heartbeatInterval r.items).2 with
      | some _ =>
        (LEvent.polled r.pollErr
            :: (processItems instanceID listenerType heartbeatInterval r.items).1,
          LoopExit.returned)
      | none =>
        (LEvent.polled r.pollErr
            :: (processItems instanceID listenerType heartbeatInterval r.items).1
              ++ (runRounds instanceID listenerType heartbeatInterval rs).1,
          (runRounds instanceID listenerType heartbeatInterval rs).2)

/-- Result of Start: the error it returns, nil, or still-looping (model
fuel ran out). -/
inductive StartResult where
  | err (e : String)
  | ok
  | outOfRounds
  deriving DecidableEq

/-- AutoscalingListener.Start (lines 63-141): Queue.Create, deferred
Queue.Delete, Queue.Subscribe, deferred Queue.Unsubscribe, then the
polling loop.  Defers run in LIFO order on every return, so a completed
run ends with the unsubscribe and then the queue delete; when Create
fails no defer is registered, and when Subscribe fails only the queue
delete defer is.  Teardown failures are logged, never returned. -/
def Start (l : AutoscalingListener) (env : StartEnv) : List LEvent × StartResult :=
  match env.createErr with
  | some e => ([], StartResult.err e)
  | none =>
    match env.subscribeErr with
    | some e => ([LEvent.deletedQueue env.deleteErr], StartResult.err e)
    | none =>
      match (runRounds l.instanceID l.listenerType l.heartbeatInterval env.rounds).2 with
      | LoopExit.fuelOut =>
        ((runRounds l.instanceID l.listenerType l.heartbeatInterval env.rounds).1,
          StartResult.outOfRounds)
      | LoopExit.returned =>
        ((runRounds l.instanceID l.listenerType l.heartbeatInterval env.rounds).1
            ++ [LEvent.unsubscribed env.unsubscribeErr,
                LEvent.deletedQueue env.deleteErr],
          StartResult.ok)

/-- Event predicate: is this an emitted notice? -/
def isEmitted : LEvent → Bool
  | LEvent.emitted _ => true
  | _ => false

/-- Event predicate: is this a poll of the queue? -/
def isPolled : LEvent → Bool
  | LEvent.polled _ => true
  | _ => false

/-- Event predicate: is this a teardown step (unsubscribe or queue
delete)? -/
def isTeardown : LEvent → Bool
  | LEvent.unsubscribed _ => true
  | LEvent.deletedQueue _ => true
  | _ => false

/-- Environment of one invocation of Handle: the user handler's return
value (handler.Execute, line 190; none is success, and a cancellation is
just the error the handler returns when cancelled) and the error, if any,
of the CompleteLifecycleAction call itself. -/
structure HandleEnv where
  handlerErr : Option String
  completeErr : Option String
  deriving DecidableEq

/-- Observable control-plane calls made during Handle, in chronological
order.  Heartbeat and completion record the request fields taken from the
notice's message; completed also records the LifecycleActionResult and
the call's own outcome. -/
inductive HEvent where
  | heartbeat (groupName hookName instanceID actionToken : String)
  | tickerStopped
  | completed (groupName hookName instanceID actionToken result : String)
      (callErr : Option String)
  deriving DecidableEq

/-- Program counter of the main goroutine of Handle: executing
handler.Execute, about to run the deferred ticker.Stop, about to run the
deferred CompleteLifecycleAction, or returned. -/
inductive HPC where
  | running
  | stopping
  | completing
  | done
  deriving DecidableEq

/-- State of the two goroutines of Handle together with the ticker.
tickerActive: the ticker has not been stopped; tickBuffered: a tick sits
in the ticker channel's one-slot buffer; hbPending: the heartbeat
goroutine has received a tick and is about to make the heartbeat call;
ret: the value handler.Execute returned (fixed before the defers run and
never changed by them). -/
structure HState where
  pc : HPC
  tickerActive : Bool
  tickBuffered : Bool
  hbPending : Bool
  ret : Option (Option String)
  trace : List HEvent
  deriving DecidableEq

/-- Scheduler choices resolving the interleaving: the ticker fires a tick
into its buffer, the heartbeat goroutine receives a buffered tick, the
heartbeat goroutine performs the RecordLifecycleActionHeartbeat call, or
the main goroutine advances one step. -/
inductive HChoice where
  | tick
  | recv
  | hbCall
  | main
  deriving DecidableEq

/-- One interleaving step of Handle (lines 154-191 of autoscaling.go).
Go semantics captured here: time.Ticker's channel has capacity one and a
tick is dropped when the buffer is full; Ticker.Stop prevents future
ticks but does not drain the buffer and does not terminate the range
loop, so the heartbeat goroutine can still receive and act on a tick
after the stop; the deferred calls of the main goroutine run in LIFO
order, ticker.Stop before CompleteLifecycleAction; the return value is
handler.Execute's result, fixed before the defers run. -/
def hstep (n : autoscalingTerminationNotice) (env : HandleEnv) (s : HState) :
    HChoice → HState
  | HChoice.tick =>
    if s.tickerActive && !s.tickBuffered then { s with tickBuffered := true } else s
  | HChoice.recv =>
    if s.tickBuffered && !s.hbPending then
      { s with tickBuffered := false, hbPending := true }
    else s
  | HChoice.hbCall =>
    if s.hbPending then
      { s with hbPending := false
               trace := s.trace
                 ++ [HEvent.heartbeat n.message.groupName n.message.hookName
                       n.message.instanceID n.message.actionToken] }
    else s
  | HChoice.main =>
    match s.pc with
    | HPC.running => { s with pc := HPC.stopping, ret := some env.handlerErr }
    | HPC.stopping =>
      { s with pc := HPC.completing, tickerActive := false
               trace := s.trace ++ [HEvent.tickerStopped] }
    | HPC.completing =>
      { s with pc := HPC.done
               trace := s.trace
                 ++ [HEvent.completed n.message.groupName n.message.hookName
                       n.message.instanceID n.message.actionToken "CONTINUE"
                       env.completeErr] }
    | HPC.done => s

/-- Initial state of Handle: handler running, ticker started, nothing
buffered, no calls made. -/
def hinit : HState :=
  { pc := HPC.running, tickerActive := true, tickBuffered := false
    hbPending := false, ret := none, trace := [] }

/-- Run Handle under a given scheduler choice sequence. -/
def hrun (n : autoscalingTerminationNotice) (env : HandleEnv)
    (sched : List HChoice) : HState :=
  sched.foldl (hstep n env) hinit

/-- Event predicate: is this a heartbeat call? -/
def isHeartbeat : HEvent → Bool
  | HEvent.heartbeat _ _ _ _ => true
  | _ => false

/-- Event predicate: is this the completion call? -/
def isCompleted : HEvent → Bool
  | HEvent.completed _ _ _ _ _ _ => true
  | _ => false

/-- A trace fragment consisting of heartbeat calls only. -/
def hbOnly (l : List HEvent) : Prop := ∀ e ∈ l, isHeartbeat e = true

/-- The completion event of a given notice and environment. -/
def completedEv (n : autoscalingTerminationNotice) (env : HandleEnv) : HEvent :=
  HEvent.completed n.message.groupName n.message.hookName n.message.instanceID
    n.message.actionToken "CONTINUE" env.completeErr

/-- Does some heartbeat call occur after the completion call in this
trace? -/
def hbAfterComplete : List HEvent → Bool
  | [] => false
  | e :: rest => if isCompleted e then rest.any isHeartbeat else hbAfterComplete rest

/-- Invariant of the Handle machine, tying the main goroutine's program
counter to the shape of the trace and to the recorded return value. -/
def hInv (n : autoscalingTerminationNotice) (env : HandleEnv) (s : HState) : Prop :=
  (s.pc = HPC.running → s.ret = none ∧ hbOnly s.trace)
  ∧ (s.pc = HPC.stopping → s.ret = some env.handlerErr ∧ hbOnly s.trace)
  ∧ (s.pc = HPC.completing → s.ret = some env.handlerErr
      ∧ ∃ A B, s.trace = A ++ HEvent.tickerStopped :: B ∧ hbOnly A ∧ hbOnly B)
  ∧ (s.pc = HPC.done → s.ret = some env.handlerErr
      ∧ ∃ A B C, s.trace = A ++ HEvent.tickerStopped :: (B ++ completedEv n env :: C)
          ∧ hbOnly A ∧ hbOnly B ∧ hbOnly C)

/-- Raw body of the spec's scenario item: an SNS envelope whose Message
field carries the encoded autoscaling lifecycle message. -/
def c8body : String :=
  "\x7b\"Type\":\"Notification\",\"Subject\":\"x\",\"Message\":\"\x7b\\\"EC2InstanceId\\\":\\\"i-1\\\",\\\"LifecycleTransition\\\":\\\"autoscaling:EC2_INSTANCE_TERMINATING\\\",\\\"AutoScalingGroupName\\\":\\\"g\\\",\\\"LifecycleActionToken\\\":\\\"t\\\",\\\"LifecycleHookName\\\":\\\"h\\\"\x7d\"\x7d"

/-- The Message field of the scenario item's envelope: the inner JSON
document as a plain string. -/
def c8inner : String :=
  "\x7b\"EC2InstanceId\":\"i-1\",\"LifecycleTransition\":\"autoscaling:EC2_INSTANCE_TERMINATING\",\"AutoScalingGroupName\":\"g\",\"LifecycleActionToken\":\"t\",\"LifecycleHookName\":\"h\"\x7d"

/-- The decoded inner message of the scenario item. -/
def c8msg : Message :=
  { time := "", groupName := "g", instanceID := "i-1", actionToken := "t"
    transition := terminationTransition, hookName := "h" }

/-- The notice the scenario item produces on a listener configured for
instance i-1 with heartbeat interval 5. -/
def c8notice : autoscalingTerminationNotice :=
  { noticeType := "autoscaling", message := c8msg, heartbeatInterval := 5 }

/-- The scenario item as received from the queue (delete succeeds). -/
def c8item : RawItem := { receiptHandle := "rh-1", body := c8body, ackErr := none }

/-- Listener configured for instance i-1. -/
def l8 : AutoscalingListener := NewAutoscalingListener "i-1" 5

/-- Listener configured for instance i-2. -/
def l8bad : AutoscalingListener := NewAutoscalingListener "i-2" 5

/-- Environment for the matching scenario: setup succeeds, one poll round
delivers the scenario item, a second round would see cancellation. -/
def env8 : StartEnv :=
  { createErr := none, subscribeErr := none
    rounds := [{ ctxDone := false, pollErr := none, items := [c8item] },
               { ctxDone := true, pollErr := none, items := [] }]
    unsubscribeErr := none, deleteErr := none }

/-- Environment for the non-matching scenario: same item, then one more
empty poll round showing the loop keeps polling, then cancellation. -/
def env8bad : StartEnv :=
  { createErr := none, subscribeErr := none
    rounds := [{ ctxDone := false, pollErr := none, items := [c8item] },
               { ctxDone := false, pollErr := none, items := [] },
               { ctxDone := true, pollErr := none, items := [] }]
    unsubscribeErr := none, deleteErr := none }

/-- Body whose envelope Type is not "Notification" (and has no Subject or
Time), with the same matching inner message. -/
def c9bodyOddType : String :=
  "\x7b\"Type\":\"SubscriptionConfirmation\",\"Message\":\"\x7b\\\"EC2InstanceId\\\":\\\"i-1\\\",\\\"LifecycleTransition\\\":\\\"autoscaling:EC2_INSTANCE_TERMINATING\\\",\\\"AutoScalingGroupName\\\":\\\"g\\\",\\\"LifecycleActionToken\\\":\\\"t\\\",\\\"LifecycleHookName\\\":\\\"h\\\"\x7d\"\x7d"

/-- Body with no Type field at all, with the same matching inner
message. -/
def c9bodyNoType : String :=
  "\x7b\"Message\":\"\x7b\\\"EC2InstanceId\\\":\\\"i-1\\\",\\\"LifecycleTransition\\\":\\\"autoscaling:EC2_INSTANCE_TERMINATING\\\",\\\"AutoScalingGroupName\\\":\\\"g\\\",\\\"LifecycleActionToken\\\":\\\"t\\\",\\\"LifecycleHookName\\\":\\\"h\\\"\x7d\"\x7d"

/-- An item whose body is not valid JSON. -/
def garbageItem : RawItem :=
  { receiptHandle := "rh-g", body := "notjson", ackErr := none }

/-- Notice used for concrete Handle runs. -/
def hn0 : autoscalingTerminationNotice :=
  { noticeType := "autoscaling", message := c8msg, heartbeatInterval := 5 }

/-- Handle environment where the handler and the completion call both
succeed. -/
def henv0 : HandleEnv := { handlerErr := none, completeErr := none }

/-- Handle environment where the handler fails and the completion call
also fails. -/
def henv1 : HandleEnv :=
  { handlerErr := some "handler failed", completeErr := some "complete failed" }

/-- Schedule in which a tick is buffered before the handler returns, the
main goroutine runs its defers and returns, and only then does the
heartbeat goroutine consume the buffered tick and make its call. -/
def hsched0 : List HChoice :=
  [HChoice.tick, HChoice.main, HChoice.main, HChoice.main, HChoice.recv,
   HChoice.hbCall]

/-- Schedule in which the main goroutine runs to completion with no
heartbeat activity. -/
def hsched1 : List HChoice := [HChoice.main, HChoice.main, HChoice.main]

/-! Theorems.  First the Handle machine: the invariant, its preservation,
and the claims about the completion protocol. -/

set_option maxRecDepth 16000

/-- The empty trace is heartbeat-only. -/
theorem hbOnly_nil : hbOnly [] := by
  intro e he
  simp at he

/-- Heartbeat-only traces are closed under append. -/
theorem hbOnly_append {A B : List HEvent} (hA : hbOnly A) (hB : hbOnly B) :
    hbOnly (A ++ B) := by
  intro e he
  rcases List.mem_append.mp he with h | h
  · exact hA e h
  · exact hB e h

/-- A single heartbeat event is heartbeat-only. -/
theorem hbOnly_single (g h i t : String) : hbOnly [HEvent.heartbeat g h i t] := by
  intro e he
  simp at he
  subst he
  rfl

/-- The Handle invariant only depends on the program counter, the return
slot and the trace; a step changing none of them preserves it. -/
theorem hInv_carry (n : autoscalingTerminationNotice) (env : HandleEnv)
    (s s' : HState) (hpc : s'.pc = s.pc) (hret : s'.ret = s.ret)
    (htr : s'.trace = s.trace) (hs : hInv n env s) : hInv n env s' := by
  obtain ⟨h1, h2, h3, h4⟩ := hs
  unfold hInv
  rw [hpc, hret, htr]
  exact ⟨h1, h2, h3, h4⟩

/-- Appending a heartbeat call to the trace preserves the Handle
invariant. -/
theorem hInv_hb (n : autoscalingTerminationNotice) (env : HandleEnv)
    (s s' : HState) (hpc : s'.pc = s.pc) (hret : s'.ret = s.ret)
    (htr : s'.trace = s.trace
      ++ [HEvent.heartbeat n.message.groupName n.message.hookName
            n.message.instanceID n.message.actionToken])
    (hs : hInv n env s) : hInv n env s' := by
  obtain ⟨h1, h2, h3, h4⟩ := hs
  unfold hInv
  rw [hpc, hret, htr]
  refine ⟨?_, ?_, ?_, ?_⟩ <;> intro hx
  · obtain ⟨hr, ho⟩ := h1 hx
    exact ⟨hr, hbOnly_append ho (hbOnly_single _ _ _ _)⟩
  · obtain ⟨hr, ho⟩ := h2 hx
    exact ⟨hr, hbOnly_append ho (hbOnly_single _ _ _ _)⟩
  · obtain ⟨hr, A, B, htr2, hA, hB⟩ := h3 hx
    refine ⟨hr, A, B ++ [HEvent.heartbeat n.message.groupName n.message.hookName
      n.message.instanceID n.message.actionToken], ?_,
      hA, hbOnly_append hB (hbOnly_single _ _ _ _)⟩
    rw [htr2]
    simp [List.append_assoc]
  · obtain ⟨hr, A, B, C, htr2, hA, hB, hC⟩ := h4 hx
    refine ⟨hr, A, B, C ++ [HEvent.heartbeat n.message.groupName n.message.hookName
      n.message.instanceID n.message.actionToken], ?_,
      hA, hB, hbOnly_append hC (hbOnly_single _ _ _ _)⟩
    rw [htr2]
    simp [List.append_assoc]

/-- Invariant transfer for the main step out of the running state: the
return slot is written with the handler's result and nothing else
changes. -/
theorem hInv_main_run (n : autoscalingTerminationNotice) (env : HandleEnv)
    (s s' : HState) (hpc : s.pc = HPC.running) (hpc' : s'.pc = HPC.stopping)
    (hret' : s'.ret = some env.handlerErr) (htr' : s'.trace = s.trace)
    (hs : hInv n env s) : hInv n env s' := by
  obtain ⟨h1, h2, h3, h4⟩ := hs
  unfold hInv
  rw [hpc', hret', htr']
  exact ⟨fun hx => (nomatch hx), fun _ => ⟨rfl, (h1 hpc).2⟩,
    fun hx => (nomatch hx), fun hx => (nomatch hx)⟩

/-- Invariant transfer for the main step out of the stopping state: the
ticker stop event is appended to the trace. -/
theorem hInv_main_stop (n : autoscalingTerminationNotice) (env : HandleEnv)
    (s s' : HState) (hpc : s.pc = HPC.stopping) (hpc' : s'.pc = HPC.completing)
    (hret' : s'.ret = s.ret)
    (htr' : s'.trace = s.trace ++ [HEvent.tickerStopped])
    (hs : hInv n env s) : hInv n env s' := by
  obtain ⟨h1, h2, h3, h4⟩ := hs
  obtain ⟨hr, ho⟩ := h2 hpc
  unfold hInv
  rw [hpc', hret', htr', hr]
  exact ⟨fun hx => (nomatch hx), fun hx => (nomatch hx),
    fun _ => ⟨rfl, s.trace, [], rfl, ho, hbOnly_nil⟩, fun hx => (nomatch hx)⟩

/-- Invariant transfer for the main step out of the completing state: the
completion event is appended to the trace. -/
theorem hInv_main_complete (n : autoscalingTerminationNotice) (env : HandleEnv)
    (s s' : HState) (hpc : s.pc = HPC.completing) (hpc' : s'.pc = HPC.done)
    (hret' : s'.ret = s.ret)
    (htr' : s'.trace = s.trace ++ [completedEv n env])
    (hs : hInv n env s) : hInv n env s' := by
  obtain ⟨h1, h2, h3, h4⟩ := hs
  obtain ⟨hr, A, B, htr2, hA, hB⟩ := h3 hpc
  unfold hInv
  rw [hpc', hret', htr', hr, htr2]
  refine ⟨fun hx => (nomatch hx), fun hx => (nomatch hx), fun hx => (nomatch hx),
    fun _ => ⟨rfl, A, B, [], ?_, hA, hB, hbOnly_nil⟩⟩
  simp [List.append_assoc]

/-- The Handle invariant is preserved by every interleaving step. -/
theorem hInv_hstep (n : autoscalingTerminationNotice) (env : HandleEnv)
    (s : HState) (c : HChoice) (h : hInv n env s) : hInv n env (hstep n env s c) := by
  cases c with
  | tick =>
    simp only [hstep]
    by_cases hc : (s.tickerActive && !s.tickBuffered) = true
    · rw [if_pos hc]
      exact hInv_carry n env s _ rfl rfl rfl h
    · rw [if_neg hc]
      exact h
  | recv =>
    simp only [hstep]
    by_cases hc : (s.tickBuffered && !s.hbPending) = true
    · rw [if_pos hc]
      exact hInv_carry n env s _ rfl rfl rfl h
    · rw [if_neg hc]
      exact h
  | hbCall =>
    simp only [hstep]
    by_cases hc : s.hbPending = true
    · rw [if_pos hc]
      exact hInv_hb n env s _ rfl rfl rfl h
    · rw [if_neg hc]
      exact h
  | main =>
    simp only [hstep]
    cases hpc : s.pc with
    | running => exact hInv_main_run n env s _ hpc rfl rfl rfl h
    | stopping => exact hInv_main_stop n env s _ hpc rfl rfl rfl h
    | completing => exact hInv_main_complete n env s _ hpc rfl rfl rfl h
    | done => exact h
/-- The Handle invariant is preserved by every schedule. -/
theorem hInv_foldl (n : autoscalingTerminationNotice) (env : HandleEnv) :
    ∀ (sched : List HChoice) (s : HState),
      hInv n env s → hInv n env (List.foldl (hstep n env) s sched)
  | [], _, h => h
  | c :: cs, s, h => hInv_foldl n env cs (hstep n env s c) (hInv_hstep n env s c h)

/-- Every reachable state of a Handle run satisfies the invariant. -/
theorem hInv_hrun (n : autoscalingTerminationNotice) (env : HandleEnv)
    (sched : List HChoice) : hInv n env (hrun n env sched) := by
  refine hInv_foldl n env sched hinit ⟨fun _ => ⟨rfl, hbOnly_nil⟩, ?_, ?_, ?_⟩ <;>
    intro hpc <;> exact absurd hpc (by simp [hinit])

/-- A heartbeat-only trace contains no completion call. -/
theorem countP_completed_zero (l : List HEvent) (h : hbOnly l) :
    l.countP isCompleted = 0 := by
  refine List.countP_eq_zero.mpr fun e he => ?_
  have h2 := h e he
  cases e <;> simp_all [isHeartbeat, isCompleted]

/-- C1: in every completed run of Handle, whatever the user handler's
outcome (success, failure, or cancellation, all captured by its returned
error value) and whatever the completion call's own outcome, the
CompleteLifecycleAction call is made exactly once, with result CONTINUE
and the notice's group name, hook name, instance id and action token, and
Handle's return value is exactly the user handler's return value — a
failure of the completion call never replaces it. -/
theorem handle_completes_once (n : autoscalingTerminationNotice)
    (env : HandleEnv) (sched : List HChoice)
    (h : (hrun n env sched).pc = HPC.done) :
    (hrun n env sched).ret = some env.handlerErr
    ∧ (hrun n env sched).trace.countP isCompleted = 1
    ∧ completedEv n env ∈ (hrun n env sched).trace := by
  obtain ⟨hret, A, B, C, htr, hA, hB, hC⟩ := (hInv_hrun n env sched).2.2.2 h
  refine ⟨hret, ?_, ?_⟩
  · rw [htr]
    simp [List.countP_append, List.countP_cons, countP_completed_zero A hA,
      countP_completed_zero B hB, countP_completed_zero C hC,
      isCompleted, completedEv]
  · rw [htr]
    simp

/-- Witness for handle_completes_once: a concrete completed run with a
failing handler and a failing completion call still returns the handler's
error. -/
theorem handle_completes_once_witness :
    (hrun hn0 henv1 hsched1).ret = some (some "handler failed") :=
  (handle_completes_once hn0 henv1 hsched1 (by decide)).1

/-- C5 counterexample: in the run where a tick is buffered before the
handler returns and only consumed afterwards, a heartbeat call is issued
after the completion call, even though the run completed; the claim that
no heartbeat tick is issued after the completion call is false. -/
theorem late_heartbeat_after_completion :
    (hrun hn0 henv0 hsched0).pc = HPC.done
    ∧ hbAfterComplete (hrun hn0 henv0 hsched0).trace = true := by decide

/-- C5 (amended): in every completed run of Handle the ticker stop happens
strictly before the completion call — the trace splits as heartbeats, then
the stop, then heartbeats, then the completion, then possibly heartbeats
from ticks that were already delivered before the stop. -/
theorem ticker_stop_precedes_completion (n : autoscalingTerminationNotice)
    (env : HandleEnv) (sched : List HChoice)
    (h : (hrun n env sched).pc = HPC.done) :
    ∃ A B C, (hrun n env sched).trace
        = A ++ HEvent.tickerStopped :: (B ++ completedEv n env :: C)
      ∧ hbOnly A ∧ hbOnly B ∧ hbOnly C :=
  ((hInv_hrun n env sched).2.2.2 h).2

/-- Witness for ticker_stop_precedes_completion at a concrete completed
run. -/
theorem ticker_stop_precedes_completion_witness :
    ∃ A B C, (hrun hn0 henv1 hsched1).trace
        = A ++ HEvent.tickerStopped :: (B ++ completedEv hn0 henv1 :: C)
      ∧ hbOnly A ∧ hbOnly B ∧ hbOnly C :=
  ticker_stop_precedes_completion hn0 henv1 hsched1 (by decide)

/-! Listener helper lemmas. -/

/-- A skip step of the filter never records a poll, teardown or emission
event. -/
theorem classify_skip_benign (instId ty : String) (hb : Nat) (body : String)
    (ev : LEvent) (h : classifyItem instId ty hb body = ItemStep.skip ev) :
    isEmitted ev = false ∧ isPolled ev = false ∧ isTeardown ev = false := by
  cases hd : decodeEnvelope body with
  | none =>
    simp only [classifyItem, hd] at h
    injection h with h2
    subst h2
    exact ⟨rfl, rfl, rfl⟩
  | some env =>
    simp only [classifyItem, hd] at h
    cases hm : decodeMessage env.message with
    | none =>
      simp only [classifyEnvelope, hm] at h
      injection h with h2
      subst h2
      exact ⟨rfl, rfl, rfl⟩
    | some msg =>
      simp only [classifyEnvelope, hm] at h
      by_cases h1 : msg.instanceID ≠ instId
      · rw [if_pos h1] at h
        injection h with h2
        subst h2
        exact ⟨rfl, rfl, rfl⟩
      · rw [if_neg h1] at h
        by_cases h2 : msg.transition ≠ terminationTransition
        · rw [if_pos h2] at h
          injection h with h3
          subst h3
          exact ⟨rfl, rfl, rfl⟩
        · rw [if_neg h2] at h
          exact absurd h (by simp)

/-- Acknowledgement events are not emissions. -/
theorem isEmitted_acked (rh : String) (r : Option String) :
    isEmitted (LEvent.acked rh r) = false := rfl

/-- The events recorded by the batch loop are acknowledgements, skip
events and emissions: never polls or teardown steps. -/
theorem processItems_benign (instId ty : String) (hb : Nat) :
    ∀ items : List RawItem, ∀ ev ∈ (processItems instId ty hb items).1,
      isPolled ev = false ∧ isTeardown ev = false
  | [], ev, hmem => by simp [processItems] at hmem
  | item :: rest, ev, hmem => by
    cases hc : classifyItem instId ty hb item.body with
    | emit n =>
      rw [processItems, hc] at hmem
      simp at hmem
      rcases hmem with h | h <;> subst h <;> exact ⟨rfl, rfl⟩
    | skip sev =>
      rw [processItems, hc] at hmem
      simp at hmem
      rcases hmem with h | h | h
      · subst h
        exact ⟨rfl, rfl⟩
      · obtain ⟨_, hp, ht⟩ := classify_skip_benign instId ty hb item.body sev hc
        subst h
        exact ⟨hp, ht⟩
      · exact processItems_benign instId ty hb rest ev h

/-- The batch loop records exactly one emission when it returns a notice
and none otherwise. -/
theorem processItems_countP (instId ty : String) (hb : Nat) :
    ∀ items : List RawItem,
      (processItems instId ty hb items).1.countP isEmitted
        = if (processItems instId ty hb items).2.isSome then 1 else 0
  | [] => by simp [processItems]
  | item :: rest => by
    cases hc : classifyItem instId ty hb item.body with
    | emit n =>
      simp [processItems, hc, List.countP_cons, isEmitted]
    | skip sev =>
      have hben := classify_skip_benign instId ty hb item.body sev hc
      have ih := processItems_countP instId ty hb rest
      simp [processItems, hc, List.countP_cons, hben.1, ih, isEmitted_acked]

/-- When the batch loop's trace contains an emission, the emission is the
final event and the loop returned exactly that notice. -/
theorem processItems_split (instId ty : String) (hb : Nat) :
    ∀ (items : List RawItem) (pre : List LEvent)
      (n : autoscalingTerminationNotice) (post : List LEvent),
      (processItems instId ty hb items).1 = pre ++ LEvent.emitted n :: post →
      post = [] ∧ (processItems instId ty hb items).2 = some n
  | [], pre, n, post, h => by simp [processItems] at h
  | item :: rest, pre, n, post, h => by
    cases hc : classifyItem instId ty hb item.body with
    | emit m =>
      rw [processItems, hc] at h
      match pre, h with
      | [], h => simp at h
      | [x], h =>
        simp at h
        obtain ⟨hx, hm, hpost⟩ := h
        subst hm
        exact ⟨hpost, by simp [processItems, hc]⟩
      | x :: y :: pre', h =>
        simp at h
    | skip sev =>
      rw [processItems, hc] at h
      match pre, h with
      | [], h => simp at h
      | [x], h =>
        simp at h
        obtain ⟨hx, hsev, hpost⟩ := h
        obtain ⟨he, _, _⟩ := classify_skip_benign instId ty hb item.body sev hc
        rw [hsev] at he
        simp [isEmitted] at he
      | x :: y :: pre', h =>
        simp at h
        obtain ⟨hx, hy, hrest⟩ := h
        obtain ⟨hpost, hres⟩ := processItems_split instId ty hb rest pre' n post hrest
        exact ⟨hpost, by simp [processItems, hc, hres]⟩

/-- The polling loop records no teardown events (those happen only in the
deferred blocks of Start). -/
theorem runRounds_benign (instId ty : String) (hb : Nat) :
    ∀ rounds : List PollRound, ∀ ev ∈ (runRounds instId ty hb rounds).1,
      isTeardown ev = false
  | [], ev, hmem => by simp [runRounds] at hmem
  | r :: rs, ev, hmem => by
    by_cases hd : r.ctxDone = true
    · simp [runRounds, hd] at hmem
    · cases hp : (processItems instId ty hb r.items).2 with
      | some m =>
        simp [runRounds, hd, hp] at hmem
        rcases hmem with h | h
        · subst h
          rfl
        · exact (processItems_benign instId ty hb r.items ev h).2
      | none =>
        simp [runRounds, hd, hp] at hmem
        rcases hmem with h | h | h
        · subst h
          rfl
        · exact (processItems_benign instId ty hb r.items ev h).2
        · exact runRounds_benign instId ty hb rs ev h

/-- The polling loop emits at most one notice. -/
theorem runRounds_countP (instId ty : String) (hb : Nat) :
    ∀ rounds : List PollRound,
      (runRounds instId ty hb rounds).1.countP isEmitted ≤ 1
  | [] => by simp [runRounds]
  | r :: rs => by
    by_cases hd : r.ctxDone = true
    · simp [runRounds, hd]
    · cases hp : (processItems instId ty hb r.items).2 with
      | some m =>
        have h := processItems_countP instId ty hb r.items
        rw [hp] at h
        simp [runRounds, hd, hp, List.countP_cons, h, isEmitted]
      | none =>
        have h := processItems_countP instId ty hb r.items
        rw [hp] at h
        have ih := runRounds_countP instId ty hb rs
        simp [runRounds, hd, hp, List.countP_cons, List.countP_append, h, isEmitted]
        exact ih

/-- When the polling loop's trace contains an emission, the emission is
the final event and the loop returned. -/
theorem runRounds_split (instId ty : String) (hb : Nat) :
    ∀ (rounds : List PollRound) (pre : List LEvent)
      (n : autoscalingTerminationNotice) (post : List LEvent),
      (runRounds instId ty hb rounds).1 = pre ++ LEvent.emitted n :: post →
      post = [] ∧ (runRounds instId ty hb rounds).2 = LoopExit.returned
  | [], pre, n, post, h => by simp [runRounds] at h
  | r :: rs, pre, n, post, h => by
    by_cases hd : r.ctxDone = true
    · simp [runRounds, hd] at h
    · cases hp : (processItems instId ty hb r.items).2 with
      | some m =>
        simp only [runRounds, hd, hp, if_neg hd] at h ⊢
        match pre, h with
        | [], h => simp at h
        | x :: pre', h =>
          simp at h
          obtain ⟨hpost, _⟩ := processItems_split instId ty hb r.items pre' n post h.2
          exact ⟨hpost, rfl⟩
      | none =>
        simp only [runRounds, hd, hp, if_neg hd] at h ⊢
        match pre, h with
        | [], h => simp at h
        | x :: pre', h =>
          simp at h
          rcases List.append_eq_append_iff.mp h.2 with ⟨a, _, ha2⟩ | ⟨c2, hc1, hc2⟩
          · obtain ⟨hpost, hres⟩ := runRounds_split instId ty hb rs a n post ha2
            exact ⟨hpost, hres⟩
          · match c2, hc1, hc2 with
            | [], hc1, hc2 =>
              obtain ⟨hpost, hres⟩ := runRounds_split instId ty hb rs [] n post hc2.symm
              exact ⟨hpost, hres⟩
            | e :: c3, hc1, hc2 =>
              have he : e = LEvent.emitted n := by
                have h3 := hc2
                simp at h3
                exact h3.1.symm
              subst he
              have h4 := (processItems_split instId ty hb r.items pre' n c3 hc1).2
              rw [hp] at h4
              exact absurd h4 (by simp)

/-- C3: a run of Start sends at most one notice, and when a notice is
emitted it is the last loop event: what follows is exactly the teardown
(unsubscribe, then queue delete), and Start returns nil. -/
theorem start_at_most_one_notice (l : AutoscalingListener) (env : StartEnv) :
    (Start l env).1.countP isEmitted ≤ 1
    ∧ ∀ (pre : List LEvent) (n : autoscalingTerminationNotice) (post : List LEvent),
        (Start l env).1 = pre ++ LEvent.emitted n :: post →
        post = [LEvent.unsubscribed env.unsubscribeErr,
                LEvent.deletedQueue env.deleteErr]
        ∧ (Start l env).2 = StartResult.ok := by
  cases hc : env.createErr with
  | some e =>
    refine ⟨by simp [Start, hc], fun pre n post h => ?_⟩
    simp [Start, hc] at h
  | none =>
    cases hs : env.subscribeErr with
    | some e =>
      refine ⟨by simp [Start, hc, hs, List.countP_cons, isEmitted], fun pre n post h => ?_⟩
      simp [Start, hc, hs] at h
      match pre, h with
      | [], h => simp at h
      | x :: pre', h => simp at h
    | none =>
      cases hrr : (runRounds l.instanceID l.listenerType l.heartbeatInterval env.rounds).2 with
      | fuelOut =>
        refine ⟨?_, fun pre n post h => ?_⟩
        · simp only [Start, hc, hs, hrr]
          exact runRounds_countP l.instanceID l.listenerType l.heartbeatInterval env.rounds
        · simp only [Start, hc, hs, hrr] at h
          have h2 := (runRounds_split l.instanceID l.listenerType l.heartbeatInterval
            env.rounds pre n post h).2
          rw [hrr] at h2
          exact absurd h2 (by simp)
      | returned =>
        refine ⟨?_, fun pre n post h => ?_⟩
        · simp only [Start, hc, hs, hrr, List.countP_append]
          have h1 := runRounds_countP l.instanceID l.listenerType l.heartbeatInterval env.rounds
          have h2 : [LEvent.unsubscribed env.unsubscribeErr,
              LEvent.deletedQueue env.deleteErr].countP isEmitted = 0 := rfl
          omega
        · simp only [Start, hc, hs, hrr] at h
          refine ⟨?_, by simp [Start, hc, hs, hrr]⟩
          rcases List.append_eq_append_iff.mp h with ⟨a, _, ha2⟩ | ⟨c2, hc1, hc2⟩
          · match a, ha2 with
            | [], ha2 => simp at ha2
            | [x], ha2 => simp at ha2
            | x :: y :: a', ha2 => simp at ha2
          · match c2, hc1, hc2 with
            | [], hc1, hc2 => simp at hc2
            | e :: c3, hc1, hc2 =>
              have he : e = LEvent.emitted n := by
                have h3 := hc2
                simp at h3
                exact h3.1.symm
              subst he
              obtain ⟨hc3, _⟩ := runRounds_split l.instanceID l.listenerType
                l.heartbeatInterval env.rounds pre n c3 hc1
              subst hc3
              simp at hc2
              exact hc2

/-- Witness for start_at_most_one_notice: the concrete matching scenario
run emits its notice last, followed only by teardown, and returns nil. -/
theorem start_at_most_one_notice_witness :
    (Start l8 env8).1.countP isEmitted ≤ 1
    ∧ (Start l8 env8).2 = StartResult.ok :=
  ⟨(start_at_most_one_notice l8 env8).1,
   ((start_at_most_one_notice l8 env8).2
      [LEvent.polled none, LEvent.acked "rh-1" none] c8notice
      [LEvent.unsubscribed none, LEvent.deletedQueue none] (by decide)).2⟩

/-- C4: Start returns a non-nil error exactly when queue creation or
subscription fails; such a failure happens before any polling, and every
other finished run returns nil — poll, acknowledge, decode and teardown
failures are never surfaced. -/
theorem start_error_iff (l : AutoscalingListener) (env : StartEnv) :
    (∀ e, (Start l env).2 = StartResult.err e ↔
        env.createErr = some e ∨ (env.createErr = none ∧ env.subscribeErr = some e))
    ∧ ((∃ e, (Start l env).2 = StartResult.err e) →
        ∀ ev ∈ (Start l env).1, isPolled ev = false)
    ∧ (env.createErr = none → env.subscribeErr = none →
        (Start l env).2 = StartResult.ok ∨ (Start l env).2 = StartResult.outOfRounds) := by
  cases hc : env.createErr with
  | some e0 =>
    refine ⟨fun e => ?_, fun _ => ?_, fun h => absurd h (by simp)⟩
    · simp [Start, hc, eq_comm]
    · simp [Start, hc]
  | none =>
    cases hs : env.subscribeErr with
    | some e0 =>
      refine ⟨fun e => ?_, fun _ ev hmem => ?_, fun _ h => absurd h (by simp)⟩
      · simp [Start, hc, hs, eq_comm]
      · simp [Start, hc, hs] at hmem
        subst hmem
        rfl
    | none =>
      cases hrr : (runRounds l.instanceID l.listenerType l.heartbeatInterval env.rounds).2 with
      | fuelOut =>
        refine ⟨fun e => ?_, fun hex => ?_, fun _ _ => by simp [Start, hc, hs, hrr]⟩
        · simp [Start, hc, hs, hrr]
        · obtain ⟨e, he⟩ := hex
          simp [Start, hc, hs, hrr] at he
      | returned =>
        refine ⟨fun e => ?_, fun hex => ?_, fun _ _ => by simp [Start, hc, hs, hrr]⟩
        · simp [Start, hc, hs, hrr]
        · obtain ⟨e, he⟩ := hex
          simp [Start, hc, hs, hrr] at he

/-- Witness for start_error_iff: a concrete queue-creation failure is
returned as Start's error. -/
theorem start_error_iff_witness :
    (Start l8 { env8 with createErr := some "boom" }).2 = StartResult.err "boom" :=
  ((start_error_iff l8 { env8 with createErr := some "boom" }).1 "boom").mpr
    (Or.inl rfl)

/-- C6: when setup succeeded and the run finished, the teardown runs
exactly once: the trace ends with the unsubscribe followed by the queue
delete, no other event is a teardown step, and the results of the two
teardown calls never change Start's return value. -/
theorem start_teardown_once (l : AutoscalingListener) (env : StartEnv)
    (hc : env.createErr = none) (hs : env.subscribeErr = none)
    (hr : (Start l env).2 ≠ StartResult.outOfRounds) :
    (∃ evs, (Start l env).1
        = evs ++ [LEvent.unsubscribed env.unsubscribeErr,
                  LEvent.deletedQueue env.deleteErr]
      ∧ ∀ ev ∈ evs, isTeardown ev = false)
    ∧ ∀ u d, (Start l { env with unsubscribeErr := u, deleteErr := d }).2
        = (Start l env).2 := by
  cases hrr : (runRounds l.instanceID l.listenerType l.heartbeatInterval env.rounds).2 with
  | fuelOut =>
    exact absurd (by simp [Start, hc, hs, hrr]) hr
  | returned =>
    refine ⟨⟨(runRounds l.instanceID l.listenerType l.heartbeatInterval env.rounds).1,
      by simp [Start, hc, hs, hrr],
      runRounds_benign l.instanceID l.listenerType l.heartbeatInterval env.rounds⟩,
      fun u d => ?_⟩
    simp [Start, hc, hs, hrr]

/-- Witness for start_teardown_once at the concrete matching scenario. -/
theorem start_teardown_once_witness :
    (∃ evs, (Start l8 env8).1
        = evs ++ [LEvent.unsubscribed env8.unsubscribeErr,
                  LEvent.deletedQueue env8.deleteErr]
      ∧ ∀ ev ∈ evs, isTeardown ev = false)
    ∧ ∀ u d, (Start l8 { env8 with unsubscribeErr := u, deleteErr := d }).2
        = (Start l8 env8).2 :=
  start_teardown_once l8 env8 rfl rfl (by decide)

/-- C2: a successfully decoded message is turned into a notice exactly
when its instance id equals the configured one and its transition is the
termination transition; a message failing either condition is dropped
with a non-emission skip event and the loop continues with the remaining
items, with no error anywhere. -/
theorem listener_filter (instId ty : String) (hb : Nat) (item : RawItem)
    (rest : List RawItem) (env : Envelope) (msg : Message)
    (he : decodeEnvelope item.body = some env)
    (hm : decodeMessage env.message = some msg) :
    (classifyItem instId ty hb item.body
        = ItemStep.emit { noticeType := ty, message := msg, heartbeatInterval := hb }
      ↔ msg.instanceID = instId ∧ msg.transition = terminationTransition)
    ∧ (msg.instanceID = instId → msg.transition = terminationTransition →
        processItems instId ty hb (item :: rest)
          = ([LEvent.acked item.receiptHandle item.ackErr,
              LEvent.emitted { noticeType := ty, message := msg
                               heartbeatInterval := hb }],
             some { noticeType := ty, message := msg, heartbeatInterval := hb }))
    ∧ (¬(msg.instanceID = instId ∧ msg.transition = terminationTransition) →
        ∃ ev, isEmitted ev = false
          ∧ processItems instId ty hb (item :: rest)
            = (LEvent.acked item.receiptHandle item.ackErr
                :: ev :: (processItems instId ty hb rest).1,
               (processItems instId ty hb rest).2)) := by
  by_cases h1 : msg.instanceID = instId
  · by_cases h2 : msg.transition = terminationTransition
    · have hcl : classifyItem instId ty hb item.body
          = ItemStep.emit { noticeType := ty, message := msg, heartbeatInterval := hb } := by
        simp [classifyItem, he, classifyEnvelope, hm, h1, h2]
      refine ⟨⟨fun _ => ⟨h1, h2⟩, fun _ => hcl⟩, fun _ _ => ?_,
        fun hcon => absurd ⟨h1, h2⟩ hcon⟩
      simp [processItems, hcl]
    · have hcl : classifyItem instId ty hb item.body
          = ItemStep.skip (LEvent.skippedTransition msg.transition) := by
        simp [classifyItem, he, classifyEnvelope, hm, h1, h2]
      refine ⟨⟨fun hemit => ?_, fun hcond => absurd hcond.2 h2⟩,
        fun _ hc2 => absurd hc2 h2, fun _ => ?_⟩
      · rw [hcl] at hemit
        exact absurd hemit (by simp)
      · exact ⟨LEvent.skippedTransition msg.transition, rfl, by simp [processItems, hcl]⟩
  · have hcl : classifyItem instId ty hb item.body
        = ItemStep.skip (LEvent.skippedInstance msg.instanceID) := by
      simp [classifyItem, he, classifyEnvelope, hm, h1]
    refine ⟨⟨fun hemit => ?_, fun hcond => absurd hcond.1 h1⟩,
      fun hc1 _ => absurd hc1 h1, fun _ => ?_⟩
    · rw [hcl] at hemit
      exact absurd hemit (by simp)
    · exact ⟨LEvent.skippedInstance msg.instanceID, rfl, by simp [processItems, hcl]⟩

/-- Witness for listener_filter: the scenario item decodes and matches a
listener for i-1, so its classification is the emission. -/
theorem listener_filter_witness :
    classifyItem "i-1" "autoscaling" 5 c8item.body
      = ItemStep.emit { noticeType := "autoscaling", message := c8msg
                        heartbeatInterval := 5 } :=
  ((listener_filter "i-1" "autoscaling" 5 c8item []
      { type := "Notification", subject := "x", time := "", message := c8inner }
      c8msg (by decide) (by decide)).1).mpr ⟨rfl, rfl⟩

/-- C7: an item whose envelope or inner message fails to decode is still
acknowledged first, produces a decode-failure event instead of any
notice, and the loop continues with the remaining items; nothing fails. -/
theorem decode_failure_skips (instId ty : String) (hb : Nat) (item : RawItem)
    (rest : List RawItem) :
    (decodeEnvelope item.body = none →
      processItems instId ty hb (item :: rest)
        = (LEvent.acked item.receiptHandle item.ackErr
            :: LEvent.envelopeDecodeFailed item.body
            :: (processItems instId ty hb rest).1,
           (processItems instId ty hb rest).2))
    ∧ ∀ env, decodeEnvelope item.body = some env → decodeMessage env.message = none →
      processItems instId ty hb (item :: rest)
        = (LEvent.acked item.receiptHandle item.ackErr
            :: LEvent.messageDecodeFailed env.message
            :: (processItems instId ty hb rest).1,
           (processItems instId ty hb rest).2) := by
  constructor
  · intro hd
    have hcl : classifyItem instId ty hb item.body
        = ItemStep.skip (LEvent.envelopeDecodeFailed item.body) := by
      simp [classifyItem, hd]
    simp [processItems, hcl]
  · intro env hd hm
    have hcl : classifyItem instId ty hb item.body
        = ItemStep.skip (LEvent.messageDecodeFailed env.message) := by
      simp [classifyItem, hd, classifyEnvelope, hm]
    simp [processItems, hcl]

/-- Witness for decode_failure_skips: a concrete undecodable item. -/
theorem decode_failure_skips_witness :
    processItems "i-1" "autoscaling" 5 [garbageItem]
      = (LEvent.acked garbageItem.receiptHandle garbageItem.ackErr
          :: LEvent.envelopeDecodeFailed garbageItem.body
          :: (processItems "i-1" "autoscaling" 5 []).1,
         (processItems "i-1" "autoscaling" 5 []).2) :=
  (decode_failure_skips "i-1" "autoscaling" 5 garbageItem []).1 (by decide)

/-- C9: whether a notice is emitted for a decoded envelope depends only on
its Message payload, never on Type, Subject or Time; concretely, a body
whose Type is not Notification, or that has no Type at all, still
produces the notice when the inner message matches. -/
theorem envelope_metadata_ignored :
    (∀ (instId ty : String) (hb : Nat) (e1 e2 : Envelope),
        e1.message = e2.message →
        classifyEnvelope instId ty hb e1 = classifyEnvelope instId ty hb e2)
    ∧ classifyItem "i-1" "autoscaling" 5 c9bodyOddType
        = ItemStep.emit { noticeType := "autoscaling", message := c8msg
                          heartbeatInterval := 5 }
    ∧ classifyItem "i-1" "autoscaling" 5 c9bodyNoType
        = ItemStep.emit { noticeType := "autoscaling", message := c8msg
                          heartbeatInterval := 5 } := by
  refine ⟨fun instId ty hb e1 e2 hmsg => ?_, by decide, by decide⟩
  simp only [classifyEnvelope, hmsg]

/-- Witness for envelope_metadata_ignored: two envelopes differing in
Type, Subject and Time but sharing a Message classify identically. -/
theorem envelope_metadata_ignored_witness :
    classifyEnvelope "i-1" "autoscaling" 5
        { type := "Notification", subject := "x", time := "", message := "zzz" }
      = classifyEnvelope "i-1" "autoscaling" 5
        { type := "Other", subject := "", time := "later", message := "zzz" } :=
  envelope_metadata_ignored.1 "i-1" "autoscaling" 5 _ _ rfl

/-- C10: the outcome of the acknowledgement (DeleteMessage) call changes
only the logged acknowledgement event: the item is still decoded and
filtered identically, and can still produce the run's notice — concretely
the scenario item is emitted even when its delete fails. -/
theorem ack_failure_harmless (instId ty : String) (hb : Nat) (rh body : String)
    (rest : List RawItem) (r1 r2 : Option String) :
    (∃ tl res,
      processItems instId ty hb
          ({ receiptHandle := rh, body := body, ackErr := r1 } :: rest)
        = (LEvent.acked rh r1 :: tl, res)
      ∧ processItems instId ty hb
          ({ receiptHandle := rh, body := body, ackErr := r2 } :: rest)
        = (LEvent.acked rh r2 :: tl, res))
    ∧ (processItems "i-1" "autoscaling" 5
        [{ receiptHandle := "rh-1", body := c8body, ackErr := some "ackfail" }]).2
      = some c8notice := by
  refine ⟨?_, by decide⟩
  cases hc : classifyItem instId ty hb body with
  | emit n =>
    exact ⟨[LEvent.emitted n], some n, by simp [processItems, hc], by simp [processItems, hc]⟩
  | skip ev =>
    exact ⟨ev :: (processItems instId ty hb rest).1, (processItems instId ty hb rest).2,
      by simp [processItems, hc], by simp [processItems, hc]⟩

/-- C8: the spec's scenario item: with configured instance i-1 the run
emits exactly one notice carrying instance id i-1 and action token t and
then tears down; with configured instance i-2 the same item is skipped,
polling continues, and no notice is emitted. -/
theorem scenario_payload :
    Start l8 env8
      = ([LEvent.polled none, LEvent.acked "rh-1" none, LEvent.emitted c8notice,
          LEvent.unsubscribed none, LEvent.deletedQueue none], StartResult.ok)
    ∧ c8notice.message.instanceID = "i-1"
    ∧ c8notice.message.actionToken = "t"
    ∧ Start l8bad env8bad
      = ([LEvent.polled none, LEvent.acked "rh-1" none,
          LEvent.skippedInstance "i-1", LEvent.polled none,
          LEvent.unsubscribed none, LEvent.deletedQueue none], StartResult.ok) := by
  refine ⟨by decide, rfl, rfl, by decide⟩

end Lifecycled




